import Mathlib

/-!
Verification of the geodesy / map-projection core of the geocart repository.

The JavaScript source (src/script.js and its two near-identical unnamed
copies) is shallowly embedded here over the real numbers: every numeric
JavaScript expression is translated to the corresponding exact real
expression, `Math.sin`/`Math.cos`/`Math.tan`/`Math.atan2`/`Math.sqrt`/
`Math.log` become `Real.sin`/`Real.cos`/`Real.tan`/`atan2`/`Real.sqrt`/
`Real.log`, `Math.floor` becomes `Int.floor`, and the bounded `do … while`
loops become fuel-indexed recursions with the same exit conditions.
Where the source formats a number with `toFixed(2)` (a display concern)
the embedding keeps the underlying numeric value.
-/

namespace Geocart

/-! WGS84 ellipsoid constants, verbatim from the `WGS84` object in the source. -/

namespace WGS84

/-- Semi-major axis (equatorial radius), meters. -/
noncomputable def a : ℝ := 6378137.0

/-- Semi-minor axis (polar radius), meters. -/
noncomputable def b : ℝ := 6356752.314245

/-- Flattening. -/
noncomputable def f : ℝ := 1 / 298.257223563

/-- First eccentricity. -/
noncomputable def e : ℝ := 0.0818191908426

/-- First eccentricity squared. -/
noncomputable def e2 : ℝ := 0.00669437999014

/-- Second eccentricity squared. -/
noncomputable def ep2 : ℝ := 0.00673949674228

end WGS84

/-- `toRadians(degrees) = degrees * (Math.PI / 180)`. -/
noncomputable def toRadians (degrees : ℝ) : ℝ := degrees * (Real.pi / 180)

/-- `toDegrees(radians) = radians * (180 / Math.PI)`. -/
noncomputable def toDegrees (radians : ℝ) : ℝ := radians * (180 / Real.pi)

/-- JavaScript `Math.atan2(y, x)` over exact reals (no signed zero):
principal value of the angle of the vector `(x, y)`, in `(-pi, pi]`. -/
noncomputable def atan2 (y x : ℝ) : ℝ :=
  if 0 < x then Real.arctan (y / x)
  else if x < 0 then
    (if 0 ≤ y then Real.arctan (y / x) + Real.pi else Real.arctan (y / x) - Real.pi)
  else
    (if 0 < y then Real.pi / 2 else if y < 0 then -(Real.pi / 2) else 0)

/-! ## Vincenty inverse distance solver

The per-iteration quantities of the `do … while` loop in `vincentyDistance`
are functions of the loop variable `lam` (the source's `λ`) and of the fixed
reduced-latitude data `sinU1, cosU1, sinU2, cosU2` and longitude
difference `L`. -/

/-- `sinσ = sqrt((cosU2·sinλ)² + (cosU1·sinU2 - sinU1·cosU2·cosλ)²)`. -/
noncomputable def vSinSigma (sinU1 cosU1 sinU2 cosU2 lam : ℝ) : ℝ :=
  Real.sqrt ((cosU2 * Real.sin lam) ^ 2 +
    (cosU1 * sinU2 - sinU1 * cosU2 * Real.cos lam) ^ 2)

/-- `cosσ = sinU1·sinU2 + cosU1·cosU2·cosλ`. -/
noncomputable def vCosSigma (sinU1 cosU1 sinU2 cosU2 lam : ℝ) : ℝ :=
  sinU1 * sinU2 + cosU1 * cosU2 * Real.cos lam

/-- `σ = atan2(sinσ, cosσ)`. -/
noncomputable def vSigma (sinU1 cosU1 sinU2 cosU2 lam : ℝ) : ℝ :=
  atan2 (vSinSigma sinU1 cosU1 sinU2 cosU2 lam) (vCosSigma sinU1 cosU1 sinU2 cosU2 lam)

/-- `sinα = cosU1·cosU2·sinλ / sinσ`. -/
noncomputable def vSinAlpha (sinU1 cosU1 sinU2 cosU2 lam : ℝ) : ℝ :=
  cosU1 * cosU2 * Real.sin lam / vSinSigma sinU1 cosU1 sinU2 cosU2 lam

/-- `cos²α = 1 - sinα²`. -/
noncomputable def vCos2Alpha (sinU1 cosU1 sinU2 cosU2 lam : ℝ) : ℝ :=
  1 - vSinAlpha sinU1 cosU1 sinU2 cosU2 lam ^ 2

/-- `cos2σm = cos²α ≠ 0 ? cosσ - 2·sinU1·sinU2/cos²α : 0`. -/
noncomputable def vCos2SigmaM (sinU1 cosU1 sinU2 cosU2 lam : ℝ) : ℝ :=
  if vCos2Alpha sinU1 cosU1 sinU2 cosU2 lam ≠ 0 then
    vCosSigma sinU1 cosU1 sinU2 cosU2 lam -
      2 * sinU1 * sinU2 / vCos2Alpha sinU1 cosU1 sinU2 cosU2 lam
  else 0

/-- `C = f/16·cos²α·(4 + f·(4 - 3·cos²α))`. -/
noncomputable def vCFactor (sinU1 cosU1 sinU2 cosU2 lam : ℝ) : ℝ :=
  WGS84.f / 16 * vCos2Alpha sinU1 cosU1 sinU2 cosU2 lam *
    (4 + WGS84.f * (4 - 3 * vCos2Alpha sinU1 cosU1 sinU2 cosU2 lam))

/-- The update `λ = L + (1-C)·f·sinα·(σ + C·sinσ·(cos2σm + C·cosσ·(-1 + 2·cos2σm²)))`. -/
noncomputable def vNextLam (L sinU1 cosU1 sinU2 cosU2 lam : ℝ) : ℝ :=
  L + (1 - vCFactor sinU1 cosU1 sinU2 cosU2 lam) * WGS84.f *
    vSinAlpha sinU1 cosU1 sinU2 cosU2 lam *
    (vSigma sinU1 cosU1 sinU2 cosU2 lam +
      vCFactor sinU1 cosU1 sinU2 cosU2 lam * vSinSigma sinU1 cosU1 sinU2 cosU2 lam *
        (vCos2SigmaM sinU1 cosU1 sinU2 cosU2 lam +
          vCFactor sinU1 cosU1 sinU2 cosU2 lam * vCosSigma sinU1 cosU1 sinU2 cosU2 lam *
            (-1 + 2 * vCos2SigmaM sinU1 cosU1 sinU2 cosU2 lam ^ 2)))

/-- The tuple `(sinσ, cosσ, σ, cos²α, cos2σm)` carried out of the loop and
consumed by the final distance formula. -/
noncomputable def vRes (sinU1 cosU1 sinU2 cosU2 lam : ℝ) : ℝ × ℝ × ℝ × ℝ × ℝ :=
  (vSinSigma sinU1 cosU1 sinU2 cosU2 lam,
   vCosSigma sinU1 cosU1 sinU2 cosU2 lam,
   vSigma sinU1 cosU1 sinU2 cosU2 lam,
   vCos2Alpha sinU1 cosU1 sinU2 cosU2 lam,
   vCos2SigmaM sinU1 cosU1 sinU2 cosU2 lam)

open Classical in
/-- The `do { … } while (Math.abs(λ - λʹ) > 1e-12 && --iterLimit > 0)` loop of
`vincentyDistance`, with `fuel` playing the role of `iterLimit` (entered with
`iterLimit = 100`).  The first component is `none` exactly when the loop hit
the `if (sinσ === 0) return 0` short-circuit for coincident points, and
otherwise `some` of the loop's final `(sinσ, cosσ, σ, cos²α, cos2σm)`.
The second component counts how many times the loop body ran. -/
noncomputable def vloop (L sinU1 cosU1 sinU2 cosU2 : ℝ) :
    ℕ → ℝ → Option (ℝ × ℝ × ℝ × ℝ × ℝ) × ℕ
  | fuel + 1, lam =>
    if vSinSigma sinU1 cosU1 sinU2 cosU2 lam = 0 then (none, 1)
    else if 1e-12 < |vNextLam L sinU1 cosU1 sinU2 cosU2 lam - lam| ∧ 0 < fuel then
      let r := vloop L sinU1 cosU1 sinU2 cosU2 fuel (vNextLam L sinU1 cosU1 sinU2 cosU2 lam)
      (r.1, r.2 + 1)
    else (some (vRes sinU1 cosU1 sinU2 cosU2 lam), 1)
  | 0, lam =>
    if vSinSigma sinU1 cosU1 sinU2 cosU2 lam = 0 then (none, 1)
    else (some (vRes sinU1 cosU1 sinU2 cosU2 lam), 1)

/-- `tanU = (1 - f)·tan(φ)` for the reduced latitude of a point. -/
noncomputable def vTanU (lat : ℝ) : ℝ := (1 - WGS84.f) * Real.tan (toRadians lat)

/-- `cosU = 1 / sqrt(1 + tanU²)`. -/
noncomputable def vCosU (lat : ℝ) : ℝ := 1 / Real.sqrt (1 + vTanU lat * vTanU lat)

/-- `sinU = tanU·cosU`. -/
noncomputable def vSinU (lat : ℝ) : ℝ := vTanU lat * vCosU lat

/-- `L = toRadians(lon2 - lon1)`. -/
noncomputable def vL (lon1 lon2 : ℝ) : ℝ := toRadians (lon2 - lon1)

/-- The closing formulas of `vincentyDistance`: given the loop's final
`(sinσ, cosσ, σ, cos²α, cos2σm)`, compute `u²`, the series coefficients
`A` and `B`, the correction `Δσ`, and the distance `b·A·(σ - Δσ)`. -/
noncomputable def vFinal (sinSigma cosSigma sigma cos2Alpha cos2SigmaM : ℝ) : ℝ :=
  let u2 := cos2Alpha * (WGS84.a ^ 2 - WGS84.b ^ 2) / WGS84.b ^ 2
  let bigA := 1 + u2 / 16384 * (4096 + u2 * (-768 + u2 * (320 - 175 * u2)))
  let bigB := u2 / 1024 * (256 + u2 * (-128 + u2 * (74 - 47 * u2)))
  let dSigma := bigB * sinSigma * (cos2SigmaM + bigB / 4 *
    (cosSigma * (-1 + 2 * cos2SigmaM ^ 2) -
      bigB / 6 * cos2SigmaM * (-3 + 4 * sinSigma ^ 2) * (-3 + 4 * cos2SigmaM ^ 2)))
  WGS84.b * bigA * (sigma - dSigma)

/-- `vincentyDistance(lat1, lon1, lat2, lon2)`: the Vincenty inverse solver of
the source, entered with `λ = L` and `iterLimit = 100`; returns `0` on the
coincident-point short-circuit and otherwise the closing distance formula. -/
noncomputable def vincentyDistance (lat1 lon1 lat2 lon2 : ℝ) : ℝ :=
  match (vloop (vL lon1 lon2) (vSinU lat1) (vCosU lat1) (vSinU lat2) (vCosU lat2)
      100 (vL lon1 lon2)).1 with
  | none => 0
  | some (sinSigma, cosSigma, sigma, cos2Alpha, cos2SigmaM) =>
    vFinal sinSigma cosSigma sigma cos2Alpha cos2SigmaM

/-! ## Azimuth and rumb -/

open Classical in
/-- `calculateAzimuth(lat1, lon1, lat2, lon2)`: forward azimuth in degrees,
`atan2(y, x)` converted to degrees and normalized by adding 360 when negative. -/
noncomputable def calculateAzimuth (lat1 lon1 lat2 lon2 : ℝ) : ℝ :=
  let phi1 := toRadians lat1
  let phi2 := toRadians lat2
  let dLam := toRadians (lon2 - lon1)
  let y := Real.sin dLam * Real.cos phi2
  let x := Real.cos phi1 * Real.sin phi2 - Real.sin phi1 * Real.cos phi2 * Real.cos dLam
  let azimuth := toDegrees (atan2 y x)
  if azimuth < 0 then azimuth + 360 else azimuth

/-- The four quadrant labels returned by `azimuthToRumbo`. -/
inductive Quadrant where
  | NE | SE | SW | NW
deriving DecidableEq

open Classical in
/-- `azimuthToRumbo(azimuth)`: quadrant label plus complementary angle.  The
source renders the angle with `toFixed(2)`; the embedding keeps the numeric
value being rendered. -/
noncomputable def azimuthToRumbo (azimuth : ℝ) : Quadrant × ℝ :=
  if 0 ≤ azimuth ∧ azimuth < 90 then (Quadrant.NE, azimuth)
  else if 90 ≤ azimuth ∧ azimuth < 180 then (Quadrant.SE, 180 - azimuth)
  else if 180 ≤ azimuth ∧ azimuth < 270 then (Quadrant.SW, azimuth - 180)
  else (Quadrant.NW, 360 - azimuth)

/-! ## UTM forward transform -/

/-- Hemisphere tag of a UTM coordinate. -/
inductive Hemisphere where
  | N | S
deriving DecidableEq

/-- The record returned by `latLonToUTM`.  The source formats easting and
northing with `toFixed(2)`; the embedding keeps the numeric values. -/
structure UTMCoordinate where
  zone : ℤ
  hemisphere : Hemisphere
  easting : ℝ
  northing : ℝ

/-- `zone = Math.floor((lon + 180) / 6) + 1`. -/
noncomputable def utmZone (lon : ℝ) : ℤ := ⌊(lon + 180) / 6⌋ + 1

/-- `lonOrigin = (zone - 1) * 6 - 180 + 3`, the central meridian in degrees. -/
noncomputable def utmLonOrigin (lon : ℝ) : ℝ := ((utmZone lon : ℝ) - 1) * 6 - 180 + 3

/-- `N = a / sqrt(1 - e2·sin²(latRad))`. -/
noncomputable def utmN (lat : ℝ) : ℝ :=
  WGS84.a / Real.sqrt (1 - WGS84.e2 * Real.sin (toRadians lat) ^ 2)

/-- `M`: meridian arc length from the equator, the 4-term series in `e2`. -/
noncomputable def utmM (lat : ℝ) : ℝ :=
  WGS84.a * ((1 - WGS84.e2 / 4 - 3 * WGS84.e2 ^ 2 / 64 - 5 * WGS84.e2 ^ 3 / 256) * toRadians lat
    - (3 * WGS84.e2 / 8 + 3 * WGS84.e2 ^ 2 / 32 + 45 * WGS84.e2 ^ 3 / 1024) *
        Real.sin (2 * toRadians lat)
    + (15 * WGS84.e2 ^ 2 / 256 + 45 * WGS84.e2 ^ 3 / 1024) * Real.sin (4 * toRadians lat)
    - (35 * WGS84.e2 ^ 3 / 3072) * Real.sin (6 * toRadians lat))

/-- `easting = k0·N·(A + (1-T+C)A³/6 + (5-18T+T²+72C-58·ep2)A⁵/120) + 500000`. -/
noncomputable def utmEasting (lat lon : ℝ) : ℝ :=
  let latRad := toRadians lat
  let bigT := Real.tan latRad ^ 2
  let bigC := WGS84.ep2 * Real.cos latRad ^ 2
  let bigA := Real.cos latRad * (toRadians lon - toRadians (utmLonOrigin lon))
  0.9996 * utmN lat * (bigA + (1 - bigT + bigC) * bigA ^ 3 / 6 +
    (5 - 18 * bigT + bigT ^ 2 + 72 * bigC - 58 * WGS84.ep2) * bigA ^ 5 / 120) + 500000

/-- The northing before the southern-hemisphere false-northing offset:
`k0·(M + N·tanφ·(A²/2 + (5-T+9C+4C²)A⁴/24 + (61-58T+T²+600C-330·ep2)A⁶/720))`. -/
noncomputable def utmNorthingRaw (lat lon : ℝ) : ℝ :=
  let latRad := toRadians lat
  let bigT := Real.tan latRad ^ 2
  let bigC := WGS84.ep2 * Real.cos latRad ^ 2
  let bigA := Real.cos latRad * (toRadians lon - toRadians (utmLonOrigin lon))
  0.9996 * (utmM lat + utmN lat * Real.tan latRad * (bigA ^ 2 / 2 +
    (5 - bigT + 9 * bigC + 4 * bigC ^ 2) * bigA ^ 4 / 24 +
    (61 - 58 * bigT + bigT ^ 2 + 600 * bigC - 330 * WGS84.ep2) * bigA ^ 6 / 720))

open Classical in
/-- `latLonToUTM(lat, lon)`: UTM zone, hemisphere (`'N'` iff `lat >= 0`),
easting, and northing with `10000000` added when `lat < 0`. -/
noncomputable def latLonToUTM (lat lon : ℝ) : UTMCoordinate :=
  { zone := utmZone lon
    hemisphere := if 0 ≤ lat then Hemisphere.N else Hemisphere.S
    easting := utmEasting lat lon
    northing := if lat < 0 then utmNorthingRaw lat lon + 10000000 else utmNorthingRaw lat lon }

/-! ## Polygon geodesic area -/

/-- A geographic point `{lat, lon}` in decimal degrees. -/
structure GeoPoint where
  lat : ℝ
  lon : ℝ

/-- The summand of the loop in `calculateGeodesicArea` for index `i`, with
`j = (i + 1) % n`: `dLon·(2 + sin(lat_i) + sin(lat_j))` in radians. -/
noncomputable def areaTerm (pts : List GeoPoint) (i : ℕ) : ℝ :=
  let p := pts.getD i ⟨0, 0⟩
  let q := pts.getD ((i + 1) % pts.length) ⟨0, 0⟩
  toRadians (q.lon - p.lon) * (2 + Real.sin (toRadians p.lat) + Real.sin (toRadians q.lat))

open Classical in
/-- `calculateGeodesicArea(pts)`: `0` for fewer than 3 points, otherwise
`Math.abs(area · a · a / 2)` where `area` sums `areaTerm` over all indices. -/
noncomputable def calculateGeodesicArea (pts : List GeoPoint) : ℝ :=
  if pts.length < 3 then 0
  else |(∑ i ∈ Finset.range pts.length, areaTerm pts i) * WGS84.a * WGS84.a / 2|

/-! ## Planar projection engine -/

/-- A projected point `{x, y}` in percentage units. -/
structure PlanarPoint where
  x : ℝ
  y : ℝ

/-- The 10 fixed Newton-Raphson iterations solving `2θ + sin 2θ = π sin φ`
in the `mollweide` branch, seeded at `θ = latRad`. -/
noncomputable def mollweideIter (latRad : ℝ) : ℕ → ℝ → ℝ
  | 0, theta => theta
  | n + 1, theta =>
    mollweideIter latRad n
      (theta - (2 * theta + Real.sin (2 * theta) - Real.pi * Real.sin latRad) /
        (2 + 2 * Real.cos (2 * theta)))

/-- The 19-row Robinson interpolation table `[latitude, plen, pdfe]`. -/
noncomputable def robinsonTable : List (ℝ × ℝ × ℝ) :=
  [(0, 1.0000, 0.0000), (5, 0.9986, 0.0620), (10, 0.9954, 0.1240),
   (15, 0.9900, 0.1860), (20, 0.9822, 0.2480), (25, 0.9730, 0.3100),
   (30, 0.9600, 0.3720), (35, 0.9427, 0.4340), (40, 0.9216, 0.4958),
   (45, 0.8962, 0.5571), (50, 0.8679, 0.6176), (55, 0.8350, 0.6769),
   (60, 0.7986, 0.7346), (65, 0.7597, 0.7903), (70, 0.7186, 0.8435),
   (75, 0.6732, 0.8936), (80, 0.6213, 0.9394), (85, 0.5722, 0.9761),
   (90, 0.5322, 1.0000)]

/-- `idx = Math.floor(absLat / 5)` in the `robinson` branch. -/
noncomputable def robinsonIdxRaw (lat : ℝ) : ℤ := ⌊|lat| / 5⌋

open Classical in
/-- The clamp `if (idx >= robinsonTable.length - 1) idx = robinsonTable.length - 2`. -/
noncomputable def robinsonIdx (lat : ℝ) : ℤ :=
  if (robinsonTable.length : ℤ) - 1 ≤ robinsonIdxRaw lat then (robinsonTable.length : ℤ) - 2
  else robinsonIdxRaw lat

open Classical in
/-- `projectPoint(lat, lon, projection, width, height)`: dispatch on the
projection id string, with the equirectangular formulas as the `default`
case; the resulting unit-square coordinates are scaled by 100.  The `width`
and `height` parameters are accepted and unused, as in the source. -/
noncomputable def projectPoint (lat lon : ℝ) (projection : String) (width height : ℝ) :
    PlanarPoint :=
  let latRad := toRadians lat
  let lonRad := toRadians lon
  let p : ℝ × ℝ :=
    if projection = "mercator" then
      let maxLat : ℝ := 85
      let clampedLat := max (-maxLat) (min maxLat lat)
      ((lon + 180) / 360,
       0.5 - Real.log (Real.tan (Real.pi / 4 + toRadians clampedLat / 2)) / (2 * Real.pi))
    else if projection = "mollweide" then
      let theta := mollweideIter latRad 10 latRad
      (0.5 + (lonRad / Real.pi) * Real.cos theta * 0.4, 0.5 - Real.sin theta * 0.45)
    else if projection = "sinusoidal" then
      (0.5 + (lonRad * Real.cos latRad) / Real.pi * 0.45, 0.5 - latRad / Real.pi * 0.9)
    else if projection = "robinson" then
      let absLat := |lat|
      let row := robinsonTable.getD (robinsonIdx lat).toNat (0, 0, 0)
      let row2 := robinsonTable.getD ((robinsonIdx lat).toNat + 1) (0, 0, 0)
      let t := (absLat - row.1) / 5
      let plen := row.2.1 * (1 - t) + row2.2.1 * t
      let pdfe := row.2.2 * (1 - t) + row2.2.2 * t
      (0.5 + (lon / 180) * plen * 0.45,
       0.5 - (if lat < 0 then (-1 : ℝ) else 1) * pdfe * 0.45)
    else if projection = "lambert" then
      ((lon + 180) / 360, 0.5 - Real.sin latRad * 0.5)
    else
      ((lon + 180) / 360, (90 - lat) / 180)
  ⟨p.1 * 100, p.2 * 100⟩

/-! ## Theorems -/

/-- Claim C4: `azimuthToRumbo` uses half-open quadrant intervals at the exact
90-degree boundaries: azimuth 0 maps to NE with angle 0, azimuth 90 to SE with
angle 90, azimuth 180 to SW with angle 0, and azimuth 270 to NW with angle 90
(the source renders these angles with `toFixed(2)` as `0.00` and `90.00`). -/
theorem azimuthToRumbo_boundaries :
    azimuthToRumbo 0 = (Quadrant.NE, 0) ∧ azimuthToRumbo 90 = (Quadrant.SE, 90) ∧
    azimuthToRumbo 180 = (Quadrant.SW, 0) ∧ azimuthToRumbo 270 = (Quadrant.NW, 90) := by
  refine ⟨?_, ?_, ?_, ?_⟩ <;> norm_num [azimuthToRumbo]

/-- Claim C10: in the `robinson` branch of `projectPoint`, for every real
latitude the clamped interpolation index satisfies `0 ≤ idx ≤ 17`, so both
`robinsonTable[idx]` and `robinsonTable[idx + 1]` are in-bounds accesses of
the 19-row table. -/
theorem robinson_index_in_bounds :
    ∀ lat : ℝ, 0 ≤ robinsonIdx lat ∧ robinsonIdx lat ≤ 17 ∧
      (robinsonIdx lat).toNat + 1 < robinsonTable.length := by
  intro lat
  have hlen : robinsonTable.length = 19 := rfl
  have hraw : 0 ≤ robinsonIdxRaw lat := by
    unfold robinsonIdxRaw
    exact Int.floor_nonneg.mpr (by positivity)
  unfold robinsonIdx
  split_ifs with h <;> exact ⟨by omega, by omega, by omega⟩

/-- Claim C8: for every latitude, longitude and projection id outside
`{mercator, mollweide, sinusoidal, robinson, lambert}`, `projectPoint` falls
through to the equirectangular default `(lon+180)/360·100, (90-lat)/180·100`. -/
theorem projectPoint_default :
    ∀ (lat lon width height : ℝ) (projection : String),
      projection ∉ ["mercator", "mollweide", "sinusoidal", "robinson", "lambert"] →
      projectPoint lat lon projection width height =
        ⟨(lon + 180) / 360 * 100, (90 - lat) / 180 * 100⟩ := by
  intro lat lon width height projection h
  simp only [List.mem_cons, List.not_mem_nil, or_false, not_or] at h
  obtain ⟨h1, h2, h3, h4, h5⟩ := h
  simp only [projectPoint, if_neg h1, if_neg h2, if_neg h3, if_neg h4, if_neg h5]

/-- Witness for C8 at the concrete unmatched id `"orthographic"`. -/
theorem projectPoint_default_witness :
    projectPoint 0 0 "orthographic" 100 100 =
      ⟨(0 + 180) / 360 * 100, (90 - 0) / 180 * 100⟩ :=
  projectPoint_default 0 0 100 100 "orthographic" (by decide)

/-- Counterexample for claim C2: at the in-range longitude 180 the zone
formula `floor((lon+180)/6)+1` yields 61, outside the range 1–60 asserted by
the claim. -/
theorem utmZone_at_180_out_of_range : ¬ (latLonToUTM 0 180).zone ≤ 60 := by
  have hz : (latLonToUTM 0 180).zone = utmZone 180 := rfl
  have h6 : ((180 : ℝ) + 180) / 6 = ((60 : ℤ) : ℝ) := by norm_num
  have h61 : utmZone 180 = 61 := by
    unfold utmZone
    rw [h6, Int.floor_intCast]
    norm_num
  rw [hz, h61]
  omega

/-- Claim C2 (amended): for every input, `latLonToUTM` returns
`zone = floor((lon+180)/6)+1`, and for longitudes in `[-180, 180)` this zone
lies in the range 1 to 60 (at the included endpoint `lon = 180` the formula
yields 61 instead). -/
theorem utmZone_formula_and_range :
    ∀ lat lon : ℝ, (latLonToUTM lat lon).zone = ⌊(lon + 180) / 6⌋ + 1 ∧
      (-180 ≤ lon → lon < 180 →
        1 ≤ (latLonToUTM lat lon).zone ∧ (latLonToUTM lat lon).zone ≤ 60) := by
  intro lat lon
  have hz : (latLonToUTM lat lon).zone = ⌊(lon + 180) / 6⌋ + 1 := rfl
  refine ⟨hz, fun hlo hhi => ?_⟩
  have h0 : 0 ≤ ⌊(lon + 180) / 6⌋ := Int.floor_nonneg.mpr (by linarith)
  have h59 : ⌊(lon + 180) / 6⌋ < 60 := by
    rw [Int.floor_lt]
    push_cast
    linarith
  rw [hz]
  omega

/-- Witness for the amended C2 at `lat = 0, lon = 0` (zone 31). -/
theorem utmZone_range_witness :
    1 ≤ (latLonToUTM 0 0).zone ∧ (latLonToUTM 0 0).zone ≤ 60 :=
  (utmZone_formula_and_range 0 0).2 (by norm_num) (by norm_num)

/-- Claim C6: `latLonToUTM` returns hemisphere `S` and adds the 10,000,000 m
false northing exactly when `lat < 0`, returns hemisphere `N` with the raw
northing when `lat ≥ 0`, and its easting and zone are given by the same
formulas (`utmEasting`, `utmZone`) regardless of the sign of `lat`. -/
theorem utm_hemisphere_false_northing :
    ∀ lat lon : ℝ,
      (lat < 0 → (latLonToUTM lat lon).hemisphere = Hemisphere.S ∧
        (latLonToUTM lat lon).northing = utmNorthingRaw lat lon + 10000000) ∧
      (0 ≤ lat → (latLonToUTM lat lon).hemisphere = Hemisphere.N ∧
        (latLonToUTM lat lon).northing = utmNorthingRaw lat lon) ∧
      (latLonToUTM lat lon).easting = utmEasting lat lon ∧
      (latLonToUTM lat lon).zone = utmZone lon := by
  intro lat lon
  refine ⟨fun h => ?_, fun h => ?_, rfl, rfl⟩
  · simp only [latLonToUTM, if_neg (not_le.mpr h), if_pos h]
    exact ⟨trivial, trivial⟩
  · simp only [latLonToUTM, if_pos h, if_neg (not_lt.mpr h)]
    exact ⟨trivial, trivial⟩

/-- Witness for C6 in the southern hemisphere, at `lat = -10, lon = 3`. -/
theorem utm_hemisphere_false_northing_witness :
    (latLonToUTM (-10) 3).hemisphere = Hemisphere.S ∧
      (latLonToUTM (-10) 3).northing = utmNorthingRaw (-10) 3 + 10000000 :=
  (utm_hemisphere_false_northing (-10) 3).1 (by norm_num)


/-- The embedded `Math.atan2` always lands in the interval `(-pi, pi]`. -/
lemma atan2_mem_Ioc (y x : ℝ) : -Real.pi < atan2 y x ∧ atan2 y x ≤ Real.pi := by
  have hpi := Real.pi_pos
  have hub : Real.arctan (y / x) < Real.pi / 2 := Real.arctan_lt_pi_div_two (y / x)
  have hlb : -(Real.pi / 2) < Real.arctan (y / x) := Real.neg_pi_div_two_lt_arctan (y / x)
  unfold atan2
  split_ifs with hx hx2 hy hy2 hy3
  · constructor <;> linarith
  · have hyx : y / x ≤ 0 := div_nonpos_of_nonneg_of_nonpos hy hx2.le
    have harc : Real.arctan (y / x) ≤ 0 :=
      (Real.arctan_strictMono.monotone hyx).trans_eq Real.arctan_zero
    constructor <;> linarith
  · have hyx : 0 < y / x := div_pos_iff.mpr (Or.inr ⟨not_le.mp hy, hx2⟩)
    have harc : 0 < Real.arctan (y / x) := by
      have h0 := Real.arctan_strictMono hyx
      rwa [Real.arctan_zero] at h0
    constructor <;> linarith
  · constructor <;> linarith
  · constructor <;> linarith
  · constructor <;> linarith

/-- Claim C3: for every pair of input points, `calculateAzimuth` returns a
value in the half-open interval `[0, 360)`; in particular 360 itself is never
returned.  The value is `atan2(y,x)` in degrees with 360 added exactly when
that is negative. -/
theorem calculateAzimuth_range :
    ∀ lat1 lon1 lat2 lon2 : ℝ, 0 ≤ calculateAzimuth lat1 lon1 lat2 lon2 ∧
      calculateAzimuth lat1 lon1 lat2 lon2 < 360 := by
  intro lat1 lon1 lat2 lon2
  simp only [calculateAzimuth]
  set y := Real.sin (toRadians (lon2 - lon1)) * Real.cos (toRadians lat2) with hy
  set x := Real.cos (toRadians lat1) * Real.sin (toRadians lat2) -
    Real.sin (toRadians lat1) * Real.cos (toRadians lat2) * Real.cos (toRadians (lon2 - lon1))
    with hx
  have h := atan2_mem_Ioc y x
  have hpi := Real.pi_pos
  have hscale : 0 < 180 / Real.pi := by positivity
  have hub : toDegrees (atan2 y x) ≤ 180 := by
    unfold toDegrees
    calc atan2 y x * (180 / Real.pi) ≤ Real.pi * (180 / Real.pi) :=
          mul_le_mul_of_nonneg_right h.2 hscale.le
      _ = 180 := by
        field_simp
  have hlb : -180 < toDegrees (atan2 y x) := by
    unfold toDegrees
    calc (-180 : ℝ) = -Real.pi * (180 / Real.pi) := by
          field_simp
          ring
      _ < atan2 y x * (180 / Real.pi) := mul_lt_mul_of_pos_right h.1 hscale
  split_ifs with hneg
  · constructor <;> linarith
  · constructor <;> linarith

/-- If a loop pass starts with `sinσ = 0`, the loop returns the coincident
marker after that single pass, for any remaining fuel. -/
lemma vloop_coincident (L s1 c1 s2 c2 : ℝ) (fuel : ℕ) (lam : ℝ)
    (h : vSinSigma s1 c1 s2 c2 lam = 0) :
    vloop L s1 c1 s2 c2 fuel lam = (none, 1) := by
  cases fuel with
  | zero =>
    simp only [vloop]
    rw [if_pos h]
  | succ n =>
    simp only [vloop]
    rw [if_pos h]

/-- For coincident points the very first loop pass has `sinσ = 0`. -/
lemma vSinSigma_self_zero (s c : ℝ) : vSinSigma s c s c 0 = 0 := by
  unfold vSinSigma
  rw [Real.sin_zero, Real.cos_zero]
  have h : (c * 0) ^ 2 + (c * s - s * c * 1) ^ 2 = 0 := by ring
  rw [h, Real.sqrt_zero]

/-- Claim C5: for every point, `vincentyDistance(p, p)` takes the
`sinσ === 0` short-circuit on the first loop pass (the loop result is the
coincident marker) and returns exactly 0. -/
theorem vincentyDistance_coincident :
    ∀ lat lon : ℝ,
      (vloop (vL lon lon) (vSinU lat) (vCosU lat) (vSinU lat) (vCosU lat)
          100 (vL lon lon)).1 = none ∧
      vincentyDistance lat lon lat lon = 0 := by
  intro lat lon
  have hL : vL lon lon = 0 := by
    unfold vL toRadians
    ring
  have hloop : (vloop (vL lon lon) (vSinU lat) (vCosU lat) (vSinU lat) (vCosU lat)
      100 (vL lon lon)) = (none, 1) := by
    rw [hL]
    exact vloop_coincident _ _ _ _ _ 100 0 (vSinSigma_self_zero (vSinU lat) (vCosU lat))
  refine ⟨by rw [hloop], ?_⟩
  unfold vincentyDistance
  rw [hloop]

/-- The loop body of `vincentyDistance` runs at most `fuel` times when entered
with positive fuel. -/
lemma vloop_count_le (L s1 c1 s2 c2 : ℝ) :
    ∀ fuel : ℕ, 0 < fuel → ∀ lam : ℝ, (vloop L s1 c1 s2 c2 fuel lam).2 ≤ fuel := by
  intro fuel
  induction fuel with
  | zero => omega
  | succ n ih =>
    intro _ lam
    simp only [vloop]
    split_ifs with h1 h2
    · simp
    · have hrec := ih h2.2 (vNextLam L s1 c1 s2 c2 lam)
      simpa using Nat.add_le_add_right hrec 1
    · simp

/-- Claim C9: entered with its iteration budget of 100, the Vincenty loop
executes at most 100 passes for every input; every exit (convergence,
exhaustion, or the coincident short-circuit) is a normal return, so the
embedded `vincentyDistance` is a total function by construction. -/
theorem vincenty_iteration_bound :
    ∀ L s1 c1 s2 c2 lam : ℝ, (vloop L s1 c1 s2 c2 100 lam).2 ≤ 100 := by
  intro L s1 c1 s2 c2 lam
  exact vloop_count_le L s1 c1 s2 c2 100 (by norm_num) lam

/-! ## Symmetry of the Vincenty solver

Swapping the two endpoints swaps the reduced-latitude data and negates `L`;
the loop invariant is that the running `λ` is negated while every other
per-iteration quantity is unchanged.  The `sinσ` step needs the Pythagorean
identities for `sin λ, cos λ` and for the reduced latitudes. -/

/-- The reduced-latitude sine and cosine satisfy `sinU² + cosU² = 1`. -/
lemma vSinU_sq_add_vCosU_sq (lat : ℝ) : vSinU lat ^ 2 + vCosU lat ^ 2 = 1 := by
  unfold vSinU vCosU
  have hpos : (0 : ℝ) < 1 + vTanU lat * vTanU lat := by nlinarith [sq_nonneg (vTanU lat)]
  have hsq : Real.sqrt (1 + vTanU lat * vTanU lat) ^ 2 = 1 + vTanU lat * vTanU lat :=
    Real.sq_sqrt hpos.le
  have hne : Real.sqrt (1 + vTanU lat * vTanU lat) ≠ 0 := by positivity
  field_simp
  nlinarith [hsq]

/-- `sinσ` is invariant under swapping the endpoints and negating `λ`. -/
lemma vSinSigma_swap (s1 c1 s2 c2 lam : ℝ) (h1 : s1 ^ 2 + c1 ^ 2 = 1)
    (h2 : s2 ^ 2 + c2 ^ 2 = 1) :
    vSinSigma s2 c2 s1 c1 (-lam) = vSinSigma s1 c1 s2 c2 lam := by
  unfold vSinSigma
  rw [Real.sin_neg, Real.cos_neg]
  have hpy : Real.sin lam ^ 2 + Real.cos lam ^ 2 = 1 := Real.sin_sq_add_cos_sq lam
  congr 1
  linear_combination (-(Real.sin lam ^ 2) * c1 ^ 2) * h2 + (Real.sin lam ^ 2 * c2 ^ 2) * h1 +
    (-(c2 ^ 2 * s1 ^ 2 - c1 ^ 2 * s2 ^ 2)) * hpy

/-- `cosσ` is invariant under the endpoint swap. -/
lemma vCosSigma_swap (s1 c1 s2 c2 lam : ℝ) :
    vCosSigma s2 c2 s1 c1 (-lam) = vCosSigma s1 c1 s2 c2 lam := by
  unfold vCosSigma
  rw [Real.cos_neg]
  ring

/-- `σ` is invariant under the endpoint swap. -/
lemma vSigma_swap (s1 c1 s2 c2 lam : ℝ) (h1 : s1 ^ 2 + c1 ^ 2 = 1)
    (h2 : s2 ^ 2 + c2 ^ 2 = 1) :
    vSigma s2 c2 s1 c1 (-lam) = vSigma s1 c1 s2 c2 lam := by
  unfold vSigma
  rw [vSinSigma_swap s1 c1 s2 c2 lam h1 h2, vCosSigma_swap s1 c1 s2 c2 lam]

/-- `sinα` is negated by the endpoint swap. -/
lemma vSinAlpha_swap (s1 c1 s2 c2 lam : ℝ) (h1 : s1 ^ 2 + c1 ^ 2 = 1)
    (h2 : s2 ^ 2 + c2 ^ 2 = 1) :
    vSinAlpha s2 c2 s1 c1 (-lam) = -vSinAlpha s1 c1 s2 c2 lam := by
  unfold vSinAlpha
  rw [Real.sin_neg, vSinSigma_swap s1 c1 s2 c2 lam h1 h2]
  ring

/-- `cos²α` is invariant under the endpoint swap. -/
lemma vCos2Alpha_swap (s1 c1 s2 c2 lam : ℝ) (h1 : s1 ^ 2 + c1 ^ 2 = 1)
    (h2 : s2 ^ 2 + c2 ^ 2 = 1) :
    vCos2Alpha s2 c2 s1 c1 (-lam) = vCos2Alpha s1 c1 s2 c2 lam := by
  unfold vCos2Alpha
  rw [vSinAlpha_swap s1 c1 s2 c2 lam h1 h2]
  ring

/-- `cos2σm` is invariant under the endpoint swap. -/
lemma vCos2SigmaM_swap (s1 c1 s2 c2 lam : ℝ) (h1 : s1 ^ 2 + c1 ^ 2 = 1)
    (h2 : s2 ^ 2 + c2 ^ 2 = 1) :
    vCos2SigmaM s2 c2 s1 c1 (-lam) = vCos2SigmaM s1 c1 s2 c2 lam := by
  unfold vCos2SigmaM
  rw [vCos2Alpha_swap s1 c1 s2 c2 lam h1 h2, vCosSigma_swap s1 c1 s2 c2 lam]
  split_ifs with h
  · ring
  · rfl

/-- The correction factor `C` is invariant under the endpoint swap. -/
lemma vCFactor_swap (s1 c1 s2 c2 lam : ℝ) (h1 : s1 ^ 2 + c1 ^ 2 = 1)
    (h2 : s2 ^ 2 + c2 ^ 2 = 1) :
    vCFactor s2 c2 s1 c1 (-lam) = vCFactor s1 c1 s2 c2 lam := by
  unfold vCFactor
  rw [vCos2Alpha_swap s1 c1 s2 c2 lam h1 h2]

/-- The `λ` update is negated by the endpoint swap (with `L` negated too). -/
lemma vNextLam_swap (L s1 c1 s2 c2 lam : ℝ) (h1 : s1 ^ 2 + c1 ^ 2 = 1)
    (h2 : s2 ^ 2 + c2 ^ 2 = 1) :
    vNextLam (-L) s2 c2 s1 c1 (-lam) = -vNextLam L s1 c1 s2 c2 lam := by
  unfold vNextLam
  rw [vCFactor_swap s1 c1 s2 c2 lam h1 h2, vSinAlpha_swap s1 c1 s2 c2 lam h1 h2,
    vSigma_swap s1 c1 s2 c2 lam h1 h2, vSinSigma_swap s1 c1 s2 c2 lam h1 h2,
    vCos2SigmaM_swap s1 c1 s2 c2 lam h1 h2, vCosSigma_swap s1 c1 s2 c2 lam]
  ring

/-- The loop result tuple is invariant under the endpoint swap. -/
lemma vRes_swap (s1 c1 s2 c2 lam : ℝ) (h1 : s1 ^ 2 + c1 ^ 2 = 1)
    (h2 : s2 ^ 2 + c2 ^ 2 = 1) :
    vRes s2 c2 s1 c1 (-lam) = vRes s1 c1 s2 c2 lam := by
  unfold vRes
  rw [vSinSigma_swap s1 c1 s2 c2 lam h1 h2, vCosSigma_swap s1 c1 s2 c2 lam,
    vSigma_swap s1 c1 s2 c2 lam h1 h2, vCos2Alpha_swap s1 c1 s2 c2 lam h1 h2,
    vCos2SigmaM_swap s1 c1 s2 c2 lam h1 h2]

/-- The whole Vincenty loop is invariant under swapping the endpoints,
negating `L` and negating the initial `λ`. -/
lemma vloop_swap (L s1 c1 s2 c2 : ℝ) (h1 : s1 ^ 2 + c1 ^ 2 = 1)
    (h2 : s2 ^ 2 + c2 ^ 2 = 1) :
    ∀ (fuel : ℕ) (lam : ℝ),
      vloop (-L) s2 c2 s1 c1 fuel (-lam) = vloop L s1 c1 s2 c2 fuel lam := by
  intro fuel
  induction fuel with
  | zero =>
    intro lam
    simp only [vloop]
    rw [vSinSigma_swap s1 c1 s2 c2 lam h1 h2, vRes_swap s1 c1 s2 c2 lam h1 h2]
  | succ n ih =>
    intro lam
    simp only [vloop]
    rw [vSinSigma_swap s1 c1 s2 c2 lam h1 h2, vRes_swap s1 c1 s2 c2 lam h1 h2]
    have habs : vNextLam (-L) s2 c2 s1 c1 (-lam) - -lam =
        -(vNextLam L s1 c1 s2 c2 lam - lam) := by
      rw [vNextLam_swap L s1 c1 s2 c2 lam h1 h2]
      ring
    rw [habs, abs_neg]
    have hrec : vloop (-L) s2 c2 s1 c1 n (vNextLam (-L) s2 c2 s1 c1 (-lam)) =
        vloop L s1 c1 s2 c2 n (vNextLam L s1 c1 s2 c2 lam) := by
      rw [vNextLam_swap L s1 c1 s2 c2 lam h1 h2]
      exact ih (vNextLam L s1 c1 s2 c2 lam)
    rw [hrec]

/-- Claim C1: `vincentyDistance` is symmetric in its two endpoints: swapping
`(lat1, lon1)` and `(lat2, lon2)` leaves the returned distance unchanged, in
exact real arithmetic. -/
theorem vincentyDistance_symm :
    ∀ lat1 lon1 lat2 lon2 : ℝ,
      vincentyDistance lat1 lon1 lat2 lon2 = vincentyDistance lat2 lon2 lat1 lon1 := by
  intro lat1 lon1 lat2 lon2
  unfold vincentyDistance
  have hL : vL lon2 lon1 = -vL lon1 lon2 := by
    unfold vL toRadians
    ring
  rw [hL, vloop_swap (vL lon1 lon2) (vSinU lat1) (vCosU lat1) (vSinU lat2) (vCosU lat2)
    (vSinU_sq_add_vCosU_sq lat1) (vSinU_sq_add_vCosU_sq lat2) 100 (vL lon1 lon2)]

/-! ## Area reversal

Reversing the vertex list sends the edge `(i, i+1 mod n)` to an original edge
traversed backwards; each summand of `calculateGeodesicArea` is antisymmetric
in its edge, so the signed sum is negated and the absolute value at the end
makes the area invariant. -/

/-- `getD` on a reversed list reads the mirrored index. -/
lemma getD_rev {α : Type _} (l : List α) (k : ℕ) (d : α) (h : k < l.length) :
    l.reverse.getD k d = l.getD (l.length - 1 - k) d := by
  rw [List.getD_eq_getElem?_getD, List.getD_eq_getElem?_getD, List.getElem?_reverse h]

/-- Edge `k` of the reversed polygon is the original edge
`(n-2-k)` (or `(n-1)` when `k = n-1`) traversed backwards, and the summand
changes sign. -/
lemma areaTerm_reverse (pts : List GeoPoint) (h3 : 3 ≤ pts.length) (k : ℕ)
    (hk : k < pts.length) :
    areaTerm pts.reverse k =
      -areaTerm pts (if k = pts.length - 1 then pts.length - 1 else pts.length - 2 - k) := by
  by_cases hklast : k = pts.length - 1
  · rw [if_pos hklast]
    subst hklast
    simp only [areaTerm, List.length_reverse]
    have ha : pts.length - 1 + 1 = pts.length := by omega
    rw [ha, Nat.mod_self]
    rw [getD_rev pts (pts.length - 1) ⟨0, 0⟩ (by omega), getD_rev pts 0 ⟨0, 0⟩ (by omega)]
    have hb : pts.length - 1 - (pts.length - 1) = 0 := by omega
    have hc : pts.length - 1 - 0 = pts.length - 1 := by omega
    rw [hb, hc]
    unfold toRadians
    ring
  · rw [if_neg hklast]
    simp only [areaTerm, List.length_reverse]
    have ha : (k + 1) % pts.length = k + 1 := Nat.mod_eq_of_lt (by omega)
    rw [ha]
    rw [getD_rev pts k ⟨0, 0⟩ hk, getD_rev pts (k + 1) ⟨0, 0⟩ (by omega)]
    have hb : pts.length - 1 - (k + 1) = pts.length - 2 - k := by omega
    rw [hb]
    have hc : (pts.length - 2 - k + 1) % pts.length = pts.length - 1 - k := by
      have hd : pts.length - 2 - k + 1 = pts.length - 1 - k := by omega
      rw [hd]
      exact Nat.mod_eq_of_lt (by omega)
    rw [hc]
    unfold toRadians
    ring

/-- Reversing the vertex list negates the signed edge sum. -/
lemma areaSum_reverse (pts : List GeoPoint) (h3 : 3 ≤ pts.length) :
    ∑ i ∈ Finset.range pts.length, areaTerm pts.reverse i =
      -∑ i ∈ Finset.range pts.length, areaTerm pts i := by
  rw [← Finset.sum_neg_distrib]
  refine Finset.sum_nbij'
    (fun k => if k = pts.length - 1 then pts.length - 1 else pts.length - 2 - k)
    (fun k => if k = pts.length - 1 then pts.length - 1 else pts.length - 2 - k)
    ?_ ?_ ?_ ?_ ?_
  · intro a ha
    simp only [Finset.mem_range] at ha ⊢
    split_ifs <;> omega
  · intro a ha
    simp only [Finset.mem_range] at ha ⊢
    split_ifs <;> omega
  · intro a ha
    simp only [Finset.mem_range] at ha
    dsimp only
    split_ifs <;> omega
  · intro a ha
    simp only [Finset.mem_range] at ha
    dsimp only
    split_ifs <;> omega
  · intro a ha
    simpa using areaTerm_reverse pts h3 a (Finset.mem_range.mp ha)

/-- Claim C7: for every vertex list with at least 3 points the geodesic area
is non-negative, and reversing the vertex order (opposite winding) yields
exactly the same area: the signed edge sum is negated by reversal and the
absolute value is applied at the end. -/
theorem geodesicArea_nonneg_and_reverse :
    ∀ pts : List GeoPoint, 3 ≤ pts.length →
      0 ≤ calculateGeodesicArea pts ∧
      calculateGeodesicArea pts.reverse = calculateGeodesicArea pts := by
  intro pts h3
  constructor
  · unfold calculateGeodesicArea
    split_ifs
    · exact le_refl 0
    · exact abs_nonneg _
  · unfold calculateGeodesicArea
    rw [List.length_reverse]
    rw [if_neg (by omega), if_neg (by omega)]
    rw [areaSum_reverse pts h3]
    have h : (-∑ i ∈ Finset.range pts.length, areaTerm pts i) * WGS84.a * WGS84.a / 2 =
        -((∑ i ∈ Finset.range pts.length, areaTerm pts i) * WGS84.a * WGS84.a / 2) := by
      ring
    rw [h, abs_neg]

/-- Witness for C7 on the concrete triangle `(0,0), (0,1), (1,0)`. -/
theorem geodesicArea_witness :
    0 ≤ calculateGeodesicArea [⟨0, 0⟩, ⟨0, 1⟩, ⟨1, 0⟩] ∧
      calculateGeodesicArea ([⟨0, 0⟩, ⟨0, 1⟩, ⟨1, 0⟩] : List GeoPoint).reverse =
        calculateGeodesicArea [⟨0, 0⟩, ⟨0, 1⟩, ⟨1, 0⟩] :=
  geodesicArea_nonneg_and_reverse [⟨0, 0⟩, ⟨0, 1⟩, ⟨1, 0⟩] (by simp)

end Geocart
